import Mathlib

/-!
Shallow embedding of the asynchronous S3 JPEG image manager
(`src/rag/services/image_manager.py`) together with proofs about its
behaviour: constructor validation, client lifecycle, retry with
exponential backoff, key derivation for grouped uploads, and the
batch download/upload orchestration.

Store interaction is modelled by oracles: each raw store call of one
operation is a function from the call index (0, 1, ...) to the outcome
the store produces for that call, so that the number of attempts an
operation makes is observable.  Every operation returns its Python-level
result (`Except PyErr`) paired with the number of raw store calls it
performed.
-/

/-- Whitespace test of Python's `str.strip()` (ASCII range). -/
def pyIsSpace (c : Char) : Bool :=
  c = ' ' ∨ c = '\t' ∨ c = '\n' ∨ c = '\r' ∨ c = '\x0b' ∨ c = '\x0c'

/-- Embedding of Python's `str.strip()`: remove leading and trailing
whitespace.  (Defined structurally over the character list so that it
is evaluable; Lean's own `String.trim` is not kernel-reducible.) -/
def pyStrip (s : String) : String :=
  ⟨((s.data.dropWhile pyIsSpace).reverse.dropWhile pyIsSpace).reverse⟩

/-- Python exception values raised by the manager, tagged by exception
class (`ValueError`, `S3ImageError` and its subclasses).  The spec's
error kinds map onto these: construction-time `ValueError` is the
`ConfigurationError` kind, argument-checking `ValueError` is the
`InvalidArgument` kind, `S3ImageNotFoundError` is `NotFound`, and the
download/upload/base errors are the `TransferError`-style kinds. -/
inductive PyErr where
  | valueError (msg : String)
  | s3ImageError (msg : String)
  | s3ImageNotFoundError (msg : String)
  | s3ImageDownloadError (msg : String)
  | s3ImageUploadError (msg : String)
  deriving DecidableEq

/-- True exactly for a `ValueError`, the exception used for invalid
construction parameters and invalid caller-supplied arguments. -/
def PyErr.isValueError : PyErr → Bool
  | .valueError _ => true
  | _ => false

/-- True exactly for `S3ImageNotFoundError`. -/
def PyErr.isNotFound : PyErr → Bool
  | .s3ImageNotFoundError _ => true
  | _ => false

/-- Outcome of one raw `get_object` store call. -/
inductive GetOutcome where
  | ok (data : List Nat)
  | noSuchKey
  | clientError (code : String)
  deriving DecidableEq

/-- Outcome of one raw `put_object` store call (any failure inside the
upload body is wrapped into `S3ImageUploadError` by the code). -/
inductive PutOutcome where
  | ok
  | failed (code : String)
  deriving DecidableEq

/-- Outcome of one raw `head_object` store call. -/
inductive HeadOutcome where
  | ok
  | notFound404
  | clientError (code : String)
  deriving DecidableEq

/-- Outcome of one raw `delete_object` store call. -/
inductive DeleteOutcome where
  | ok
  | noSuchKey
  | clientError (code : String)
  deriving DecidableEq

/-- Outcome of one raw `list_objects_v2` store call. -/
inductive ListOutcome where
  | ok (keys : List String)
  | clientError (code : String)
  deriving DecidableEq

/-- A PIL image: only the colour mode matters to the code (JPEG
conversion) plus an abstract content identifier. -/
structure PILImage where
  mode : String
  pixels : Nat
  deriving DecidableEq

/-- The manager's immutable configuration after a successful
`__init__` (`max_retries` has been validated non-negative, so it is a
`Nat` here; `bucket_name` has been stripped). -/
structure S3JPEGManager where
  bucket_name : String
  jpeg_quality : Int
  max_retries : Nat
  deriving DecidableEq

/-- Embedding of `S3JPEGManager.__init__`: validates `bucket_name`
(falsy or whitespace-only is rejected), `jpeg_quality` (must satisfy
`1 <= q <= 100`) and `max_retries` (must be non-negative), in that
order, then stores the stripped bucket name. -/
def S3JPEGManager.init (bucket_name : String) (jpeg_quality : Int)
    (max_retries : Int) : Except PyErr S3JPEGManager :=
  if pyStrip bucket_name = "" then
    .error (.valueError "bucket_name cannot be empty")
  else if ¬ (1 ≤ jpeg_quality ∧ jpeg_quality ≤ 100) then
    .error (.valueError "jpeg_quality must be between 1 and 100")
  else if max_retries < 0 then
    .error (.valueError "max_retries must be non-negative")
  else
    .ok { bucket_name := pyStrip bucket_name
          jpeg_quality := jpeg_quality
          max_retries := max_retries.toNat }

/-- Mutable client state of a manager instance: `client` mirrors
`self._client`, `clientContext` mirrors `self._client_context`, and
`nextHandle` is a supply of fresh handle identities so that distinct
created clients are distinguishable. -/
structure ClientState where
  client : Option Nat
  clientContext : Option Nat
  nextHandle : Nat
  deriving DecidableEq

/-- Client state right after `__init__`: no client, no context. -/
def initialClientState : ClientState :=
  { client := none, clientContext := none, nextHandle := 0 }

/-- Embedding of `_ensure_client`: if no client exists, create one and
store it (together with its context) for reuse; otherwise do nothing. -/
def ensure_client (s : ClientState) : ClientState :=
  match s.client with
  | some _ => s
  | none =>
    { client := some s.nextHandle
      clientContext := some s.nextHandle
      nextHandle := s.nextHandle + 1 }

/-- Embedding of `close`: when a client context is held, release it and
clear both fields; otherwise do nothing. -/
def close (s : ClientState) : ClientState :=
  match s.clientContext with
  | some _ => { s with client := none, clientContext := none }
  | none => s

/-- Embedding of `_get_client`: when a shared client exists it is
yielded and the state is untouched; otherwise a fresh temporary client
is created for this one operation only and discarded on exit, so
`client` stays `none`.  Returns the handle used and the state after. -/
def get_client (s : ClientState) : Nat × ClientState :=
  match s.client with
  | some c => (c, s)
  | none => (s.nextHandle, { s with nextHandle := s.nextHandle + 1 })

/-- Result of a run of `_retry_operation`: the final Python-level
result, the number of times the wrapped operation was attempted, and
the list of backoff delays (in seconds) slept between attempts. -/
structure RetryResult (E A : Type) where
  result : Except E A
  attempts : Nat
  waits : List Nat

/-- Core loop of `_retry_operation`, at attempt index `attempt` with
`fuel` retries still allowed (`fuel` equals `max_retries - attempt`, so
the Python guard `attempt < max_retries` is `fuel ≠ 0`): run the
operation; on success return; on failure, if retries remain sleep
`2 ^ attempt` and continue with the next attempt, else re-raise the
last failure unchanged. -/
def retryGo {E A : Type} (op : Nat → Except E A) :
    (attempt fuel : Nat) → RetryResult E A
  | attempt, fuel =>
    match op attempt with
    | .ok a => ⟨.ok a, 1, []⟩
    | .error e =>
      match fuel with
      | 0 => ⟨.error e, 1, []⟩
      | f + 1 =>
        let r := retryGo op (attempt + 1) f
        ⟨r.result, r.attempts + 1, 2 ^ attempt :: r.waits⟩

/-- Embedding of `_retry_operation`: run `op` with retry budget
`maxRetries`, starting at attempt 0.  The wrapped operation is a
function of the attempt index so that attempt-dependent store behaviour
can be expressed. -/
def retryOperation {E A : Type} (maxRetries : Nat)
    (op : Nat → Except E A) : RetryResult E A :=
  retryGo op 0 maxRetries

/-- Embedding of `download_image`: an empty/whitespace-only filename
raises `ValueError` before any store call; otherwise the inner
`_download` (one `get_object` call, mapping `NoSuchKey` to
`S3ImageNotFoundError` and other client errors to
`S3ImageDownloadError`) runs under `_retry_operation`.  Returns the
result and the number of raw store calls made. -/
def download_image (m : S3JPEGManager) (get : Nat → GetOutcome)
    (filename : String) : Except PyErr (List Nat) × Nat :=
  if pyStrip filename = "" then
    (.error (.valueError "filename cannot be empty"), 0)
  else
    let op : Nat → Except PyErr (List Nat) := fun attempt =>
      match get attempt with
      | .ok data => .ok data
      | .noSuchKey =>
        .error (.s3ImageNotFoundError ("Image not found: " ++ filename))
      | .clientError code =>
        .error (.s3ImageDownloadError
          ("Failed to download " ++ filename ++ ": " ++ code))
    let r := retryOperation m.max_retries op
    (r.result, r.attempts)

/-- Embedding of the `_safe_download` closure inside `download_images`:
`S3ImageNotFoundError` is converted to an absent marker when
`ignore_missing` is set and re-raised otherwise; all other failures
propagate unchanged. -/
def safe_download (m : S3JPEGManager) (store : String → Nat → GetOutcome)
    (ignore_missing : Bool) (path : String) :
    Except PyErr (Option (List Nat)) × Nat :=
  let r := download_image m (store path) path
  match r.1 with
  | .ok data => (.ok (some data), r.2)
  | .error (.s3ImageNotFoundError msg) =>
    if ignore_missing then (.ok none, r.2)
    else (.error (.s3ImageNotFoundError msg), r.2)
  | .error e => (.error e, r.2)

/-- Model of `asyncio.gather` over already-determined task results: all
tasks run; the results are collected in task order, and the first
failed task's exception is raised. -/
def gatherE {E A : Type} : List (Except E A) → Except E (List A)
  | [] => .ok []
  | .error e :: _ => .error e
  | .ok a :: ts =>
    match gatherE ts with
    | .ok rest => .ok (a :: rest)
    | .error e => .error e

/-- Placement model for `asyncio.gather`'s result collection: tasks
finish in completion order `order`, and each finishing task `i` writes
its value `f i` into the pre-sized result slot at index `i`. -/
def fillSlots {A : Type} (f : Nat → A) (order : List Nat)
    (slots : List (Option A)) : List (Option A) :=
  order.foldl (fun acc i => acc.set i (some (f i))) slots

/-- Gather `n` task values via slot filling, starting from `n` empty
slots, with tasks completing in order `order`. -/
def gatherSlots {A : Type} (f : Nat → A) (n : Nat) (order : List Nat) :
    List (Option A) :=
  fillSlots f order (List.replicate n none)

/-- Embedding of `download_images`: empty input short-circuits to an
empty result with no store interaction; otherwise one `_safe_download`
task per path runs under `gather`.  The call count is the total number
of raw store calls of all tasks. -/
def download_images (m : S3JPEGManager) (store : String → Nat → GetOutcome)
    (paths : List String) (ignore_missing : Bool) :
    Except PyErr (List (Option (List Nat))) × Nat :=
  if paths.isEmpty then
    (.ok [], 0)
  else
    let tasks := paths.map (safe_download m store ignore_missing)
    (gatherE (tasks.map Prod.fst), (tasks.map Prod.snd).sum)

/-- JPEG mode normalization inside `_upload_image`: alpha-channel or
palette modes are converted to RGB before encoding. -/
def convertedForJpeg (img : PILImage) : PILImage :=
  if img.mode = "RGBA" ∨ img.mode = "LA" ∨ img.mode = "P" then
    { img with mode := "RGB" }
  else img

/-- Embedding of `_upload_image`: the inner `_upload` (encode and one
`put_object` call; any failure is wrapped into `S3ImageUploadError`)
runs under `_retry_operation`.  Returns the result and the number of
raw store calls made. -/
def uploadImage (m : S3JPEGManager) (put : Nat → PutOutcome)
    (key : String) : Except PyErr Unit × Nat :=
  let op : Nat → Except PyErr Unit := fun attempt =>
    match put attempt with
    | .ok => .ok ()
    | .failed code =>
      .error (.s3ImageUploadError
        ("Failed to upload image to " ++ key ++ ": " ++ code))
  let r := retryOperation m.max_retries op
  (r.result, r.attempts)

/-- Key derivation of `upload_images` (the spec's `deriveKeys`):
one key per page, pages running from `start`, built from the session
id, the stripped file name and the page number. -/
def uploadKeys (session_id : String) (file_name : String) (n : Nat)
    (start : Int) : List String :=
  (List.range n).map fun i : Nat =>
    session_id ++ "/" ++ pyStrip file_name ++ "/" ++
      toString (start + i) ++ ".jpeg"

/-- Embedding of `upload_images`: an empty image list short-circuits to
an empty key list before the file name is validated; a blank file name
then raises `ValueError`; otherwise keys are derived and one
`_upload_image` task per (key, image) pair runs under `gather`,
returning the keys on success. -/
def upload_images (m : S3JPEGManager) (put : String → Nat → PutOutcome)
    (session_id : String) (file_name : String) (images : List PILImage)
    (start : Int) : Except PyErr (List String) × Nat :=
  if images.isEmpty then
    (.ok [], 0)
  else if pyStrip file_name = "" then
    (.error (.valueError "file_name cannot be empty"), 0)
  else
    let keys := uploadKeys session_id file_name images.length start
    let tasks := keys.map fun k => uploadImage m (put k) k
    match gatherE (tasks.map Prod.fst) with
    | .ok _ => (.ok keys, (tasks.map Prod.snd).sum)
    | .error e => (.error e, (tasks.map Prod.snd).sum)

/-- The possible runtime types of the `image` argument of
`upload_single_image` (its annotation is not enforced by Python, so an
unsupported type can reach the function). -/
inductive ImageInput where
  | pil (img : PILImage)
  | bytes (data : List Nat)
  | path (p : String)
  | unsupported (typeName : String)
  deriving DecidableEq

/-- Conversion step of `upload_single_image`: a file path or raw bytes
are opened into a PIL image (abstracted), a PIL image is used as-is,
and any other type is rejected. -/
def toPILImage : ImageInput → Option PILImage
  | .pil img => some img
  | .bytes _ => some { mode := "RGB", pixels := 0 }
  | .path _ => some { mode := "RGB", pixels := 0 }
  | .unsupported _ => none

/-- Embedding of `upload_single_image`: a blank key raises
`ValueError`; an unsupported image type raises `ValueError`; both
before any store interaction.  Otherwise `_upload_image` runs on the
stripped key. -/
def upload_single_image (m : S3JPEGManager) (put : Nat → PutOutcome)
    (key : String) (image : ImageInput) : Except PyErr String × Nat :=
  if pyStrip key = "" then
    (.error (.valueError "key cannot be empty"), 0)
  else
    match toPILImage image with
    | none => (.error (.valueError "Unsupported image type"), 0)
    | some _ =>
      let r := uploadImage m put (pyStrip key)
      match r.1 with
      | .ok _ => (.ok (pyStrip key), r.2)
      | .error e => (.error e, r.2)

/-- Embedding of `image_exists`: one raw `head_object` call, not run
under `_retry_operation`; a 404 maps to `false`, any other client error
raises `S3ImageDownloadError` immediately. -/
def image_exists (m : S3JPEGManager) (head : Nat → HeadOutcome)
    (key : String) : Except PyErr Bool × Nat :=
  match head 0 with
  | .ok => (.ok true, 1)
  | .notFound404 => (.ok false, 1)
  | .clientError code =>
    (.error (.s3ImageDownloadError
      ("Failed to check if image exists: " ++ code)), 1)

/-- Embedding of `delete_image`: one raw `delete_object` call, not run
under `_retry_operation`; `NoSuchKey` maps to `false`, any other client
error raises `S3ImageError` immediately. -/
def delete_image (m : S3JPEGManager) (del : Nat → DeleteOutcome)
    (key : String) : Except PyErr Bool × Nat :=
  match del 0 with
  | .ok => (.ok true, 1)
  | .noSuchKey => (.ok false, 1)
  | .clientError code =>
    (.error (.s3ImageError
      ("Failed to delete image " ++ key ++ ": " ++ code)), 1)

/-- Embedding of `list_images`: one raw `list_objects_v2` call, not run
under `_retry_operation`; any client error raises `S3ImageError`
immediately. -/
def list_images (m : S3JPEGManager) (lst : Nat → ListOutcome)
    (pfx : String) (max_keys : Nat) : Except PyErr (List String) × Nat :=
  match lst 0 with
  | .ok keys => (.ok keys, 1)
  | .clientError code =>
    (.error (.s3ImageError ("Failed to list images: " ++ code)), 1)

/-- Concrete manager used by witnesses and counterexamples. -/
def testManager : S3JPEGManager :=
  { bucket_name := "bucket", jpeg_quality := 95, max_retries := 3 }

/-- Concrete RGB test image. -/
def testImage : PILImage := { mode := "RGB", pixels := 7 }

/-- Proof helper (not part of the embedding): numeric value of one
decimal digit character. -/
def digitVal (c : Char) : Nat := c.toNat - 48

/-- Proof helper (not part of the embedding): value of a most
significant digit first decimal digit string. -/
def digitsVal (l : List Char) : Nat :=
  l.foldl (fun a c => a * 10 + digitVal c) 0

theorem retryGo_ok {E A : Type} {op : Nat → Except E A}
    {a f : Nat} {v : A} (h : op a = .ok v) :
    retryGo op a f = ⟨.ok v, 1, []⟩ := by
  rw [retryGo, h]

theorem retryGo_error_zero {E A : Type} {op : Nat → Except E A}
    {a : Nat} {e : E} (h : op a = .error e) :
    retryGo op a 0 = ⟨.error e, 1, []⟩ := by
  rw [retryGo, h]

theorem retryGo_error_succ {E A : Type} {op : Nat → Except E A}
    {a f : Nat} {e : E} (h : op a = .error e) :
    retryGo op a (f + 1) =
      ⟨(retryGo op (a + 1) f).result,
        (retryGo op (a + 1) f).attempts + 1,
        2 ^ a :: (retryGo op (a + 1) f).waits⟩ := by
  rw [retryGo, h]

theorem retryGo_all_fail {E A : Type} (op : Nat → Except E A) :
    ∀ f a, (∀ k, a ≤ k → k ≤ a + f → (op k).isOk = false) →
      retryGo op a f =
        ⟨op (a + f), f + 1, (List.range' a f).map fun k => 2 ^ k⟩ := by
  intro f
  induction f with
  | zero =>
    intro a hfail
    have hfa := hfail a (le_refl a) (by omega)
    cases hop : op a with
    | ok v => rw [hop] at hfa; simp [Except.isOk, Except.toBool] at hfa
    | error e =>
      rw [retryGo_error_zero hop]
      simp [hop]
  | succ f ih =>
    intro a hfail
    have hfa := hfail a (le_refl a) (by omega)
    cases hop : op a with
    | ok v => rw [hop] at hfa; simp [Except.isOk, Except.toBool] at hfa
    | error e =>
      have ha : a + 1 + f = a + (f + 1) := by omega
      rw [retryGo_error_succ hop,
        ih (a + 1) (fun k hk1 hk2 => hfail k (by omega) (by omega))]
      rw [List.range'_succ]
      simp [ha]

theorem retryGo_success {E A : Type} (op : Nat → Except E A)
    (j : Nat) (v : A) (hjv : op j = .ok v) :
    ∀ f a, a ≤ j → j ≤ a + f →
      (∀ k, a ≤ k → k < j → (op k).isOk = false) →
      retryGo op a f =
        ⟨.ok v, j + 1 - a, (List.range' a (j - a)).map fun k => 2 ^ k⟩ := by
  intro f
  induction f with
  | zero =>
    intro a ha1 ha2 hfail
    have haeq : a = j := by omega
    subst haeq
    rw [retryGo_ok hjv]
    simp
  | succ f ih =>
    intro a ha1 ha2 hfail
    by_cases haj : a = j
    · subst haj
      rw [retryGo_ok hjv]
      simp
    · have halt : a < j := by omega
      have hfa := hfail a (le_refl a) halt
      cases hop : op a with
      | ok w => rw [hop] at hfa; simp [Except.isOk, Except.toBool] at hfa
      | error e =>
        rw [retryGo_error_succ hop,
          ih (a + 1) (by omega) (by omega)
            (fun k hk1 hk2 => hfail k (by omega) hk2)]
        have hr : j - a = (j - (a + 1)) + 1 := by omega
        rw [hr, List.range'_succ]
        simp
        omega

theorem retryGo_attempts_le {E A : Type} (op : Nat → Except E A) :
    ∀ f a, (retryGo op a f).attempts ≤ f + 1 := by
  intro f
  induction f with
  | zero =>
    intro a
    cases hop : op a with
    | ok v => rw [retryGo_ok hop]
    | error e => rw [retryGo_error_zero hop]
  | succ f ih =>
    intro a
    cases hop : op a with
    | ok v =>
      rw [retryGo_ok hop]
      show 1 ≤ f + 1 + 1
      omega
    | error e =>
      rw [retryGo_error_succ hop]
      have hih := ih (a + 1)
      show (retryGo op (a + 1) f).attempts + 1 ≤ f + 1 + 1
      omega

/-- C3: the retry wrapper attempts the operation at most N+1 times;
after the k-th failed attempt (k from 0) it waits 2^k time units before
the next attempt (the waits list records exactly these delays); no
attempt occurs after a success (a first success at attempt j gives
exactly j+1 attempts); and when all N+1 attempts fail the wrapper
re-raises the last failure unchanged (the result is literally `op N`,
the outcome of the final attempt). -/
theorem retry_operation_spec {E A : Type} (N : Nat) (op : Nat → Except E A) :
    (retryOperation N op).attempts ≤ N + 1
    ∧ ((∀ k, k ≤ N → (op k).isOk = false) →
        retryOperation N op =
          ⟨op N, N + 1, (List.range N).map fun k => 2 ^ k⟩)
    ∧ (∀ j v, j ≤ N → op j = .ok v → (∀ k, k < j → (op k).isOk = false) →
        retryOperation N op =
          ⟨.ok v, j + 1, (List.range j).map fun k => 2 ^ k⟩) := by
  refine ⟨?_, ?_, ?_⟩
  · exact retryGo_attempts_le op N 0
  · intro hfail
    have h := retryGo_all_fail op N 0 (fun k hk1 hk2 => hfail k (by omega))
    simpa [retryOperation, List.range_eq_range'] using h
  · intro j v hj hjv hfail
    have h := retryGo_success op j v hjv N 0 (by omega) (by omega)
      (fun k _ hk => hfail k hk)
    simpa [retryOperation, List.range_eq_range'] using h

/-- Witness for retry_operation_spec: with budget N = 2, an operation
failing twice then succeeding on the third attempt returns the success
after 3 attempts with backoff delays 1 and 2. -/
theorem retry_operation_spec_witness :
    retryOperation 2
        (fun k => if k = 2 then Except.ok 5 else Except.error "boom") =
      ⟨.ok 5, 3, [1, 2]⟩ := by
  have h := (retry_operation_spec 2
    (fun k => if k = 2 then Except.ok 5 else Except.error "boom")).2.2 2 5
    (by omega) (by simp) (by decide)
  simpa using h

/-- C1 counterexample: with max_retries = 3 (so a retry budget of 4
total attempts), a persistently failing existence check performs
exactly one raw store call and surfaces the error immediately, instead
of the 4 attempts the claimed uniform retry policy would make:
`image_exists` is not executed through the retry wrapper. -/
theorem image_exists_single_attempt_cx :
    (image_exists testManager (fun _ => .clientError "InternalError") "k").2 = 1
    ∧ (image_exists testManager
        (fun _ => .clientError "InternalError") "k").1.isOk = false
    ∧ testManager.max_retries + 1 ≠ 1 := by
  refine ⟨rfl, rfl, by decide⟩

/-- C1 (amended): only the single-object get and the put used by the
upload paths run through the retry wrapper — on persistent failure they
perform exactly max_retries + 1 raw store calls before the error
surfaces — while the existence check, delete and list execute their
store call directly: a failure surfaces after exactly one raw store
call, with no retry. -/
theorem retry_wrapper_coverage (m : S3JPEGManager) (filename key pfx : String)
    (mk : Nat) (hfn : pyStrip filename ≠ "")
    (get : Nat → GetOutcome) (hget : ∀ k d, get k ≠ .ok d)
    (put : Nat → PutOutcome) (hput : ∀ k, put k ≠ .ok)
    (head : Nat → HeadOutcome) (c1 : String) (hhead : head 0 = .clientError c1)
    (del : Nat → DeleteOutcome) (c2 : String) (hdel : del 0 = .clientError c2)
    (lst : Nat → ListOutcome) (c3 : String) (hlst : lst 0 = .clientError c3) :
    ((download_image m get filename).2 = m.max_retries + 1
      ∧ (download_image m get filename).1.isOk = false)
    ∧ ((uploadImage m put key).2 = m.max_retries + 1
      ∧ (uploadImage m put key).1.isOk = false)
    ∧ ((image_exists m head key).2 = 1
      ∧ (image_exists m head key).1.isOk = false)
    ∧ ((delete_image m del key).2 = 1
      ∧ (delete_image m del key).1.isOk = false)
    ∧ ((list_images m lst pfx mk).2 = 1
      ∧ (list_images m lst pfx mk).1.isOk = false) := by
  refine ⟨?_, ?_, ?_, ?_, ?_⟩
  · have hop : ∀ k, k ≤ m.max_retries →
        ((fun attempt =>
          match get attempt with
          | .ok data => Except.ok data
          | .noSuchKey =>
            Except.error (PyErr.s3ImageNotFoundError
              ("Image not found: " ++ filename))
          | .clientError code =>
            Except.error (PyErr.s3ImageDownloadError
              ("Failed to download " ++ filename ++ ": " ++ code)))
          k : Except PyErr (List Nat)).isOk = false := by
      intro k _
      cases hg : get k with
      | ok d => exact absurd hg (hget k d)
      | noSuchKey => simp [hg, Except.isOk, Except.toBool]
      | clientError c => simp [hg, Except.isOk, Except.toBool]
    have h := (retry_operation_spec m.max_retries _).2.1 hop
    have hres : ∀ e : Except PyErr (List Nat),
        (∀ d, e ≠ .ok d) → e.isOk = false := by
      intro e he
      cases e with
      | ok d => exact absurd rfl (he d)
      | error e => rfl
    constructor
    · simp only [download_image, if_neg hfn, h]
    · simp only [download_image, if_neg hfn, h]
      cases hg : get m.max_retries with
      | ok d => exact absurd hg (hget m.max_retries d)
      | noSuchKey => simp [hg, Except.isOk, Except.toBool]
      | clientError c => simp [hg, Except.isOk, Except.toBool]
  · have hop : ∀ k, k ≤ m.max_retries →
        ((fun attempt =>
          match put attempt with
          | .ok => Except.ok ()
          | .failed code =>
            Except.error (PyErr.s3ImageUploadError
              ("Failed to upload image to " ++ key ++ ": " ++ code)))
          k : Except PyErr Unit).isOk = false := by
      intro k _
      cases hp : put k with
      | ok => exact absurd hp (hput k)
      | failed c => simp [hp, Except.isOk, Except.toBool]
    have h := (retry_operation_spec m.max_retries _).2.1 hop
    constructor
    · simp only [uploadImage, h]
    · simp only [uploadImage, h]
      cases hp : put m.max_retries with
      | ok => exact absurd hp (hput m.max_retries)
      | failed c => simp [hp, Except.isOk, Except.toBool]
  · constructor <;> simp [image_exists, hhead, Except.isOk, Except.toBool]
  · constructor <;> simp [delete_image, hdel, Except.isOk, Except.toBool]
  · constructor <;> simp [list_images, hlst, Except.isOk, Except.toBool]

/-- Witness for retry_wrapper_coverage at a concrete manager with
max_retries = 3 and persistently failing stores. -/
theorem retry_wrapper_coverage_witness :
    (download_image testManager (fun _ => .clientError "x") "f").2 = 4
    ∧ (image_exists testManager (fun _ => .clientError "x") "k").2 = 1
    ∧ (delete_image testManager (fun _ => .clientError "x") "k").2 = 1
    ∧ (list_images testManager (fun _ => .clientError "x") "p" 10).2 = 1 := by
  have h := retry_wrapper_coverage testManager "f" "k" "p" 10
    (by decide)
    (fun _ => .clientError "x") (by intro k d; simp)
    (fun _ => .failed "x") (by intro k; simp)
    (fun _ => .clientError "x") "x" rfl
    (fun _ => .clientError "x") "x" rfl
    (fun _ => .clientError "x") "x" rfl
  exact ⟨h.1.1, h.2.2.1.1, h.2.2.2.1.1, h.2.2.2.2.1⟩

/-- C2 counterexample: on a never-opened (Closed) manager an operation
does not create the shared handle — the state still holds no client
afterwards — and a second operation uses a different fresh handle
rather than reusing the first one. -/
theorem closed_client_not_cached_cx :
    (get_client initialClientState).2.client = none
    ∧ (get_client initialClientState).1 ≠
        (get_client (get_client initialClientState).2).1 := by
  refine ⟨rfl, by decide⟩

/-- C2 (amended): an operation invoked while the handle state is
Closed creates a fresh temporary client for that one operation only —
the shared handle is not created (the state stays Closed) and a second
operation gets a different handle.  The shared handle is created only
by the explicit open (`_ensure_client`, run on context-manager entry),
and once it exists every operation reuses exactly that handle without
touching the state until close; close is idempotent and is a no-op on
a never-opened instance. -/
theorem client_lifecycle_spec (s : ClientState) :
    (s.client = none →
      (get_client s).2.client = none
      ∧ (get_client s).1 ≠ (get_client (get_client s).2).1)
    ∧ (∀ h, s.client = some h → get_client s = (h, s))
    ∧ (s.client = none → (ensure_client s).client = some s.nextHandle)
    ∧ (∀ h, (ensure_client s).client = some h →
        get_client (ensure_client s) = (h, ensure_client s))
    ∧ close (close s) = close s
    ∧ (s.clientContext = none → close s = s) := by
  refine ⟨?_, ?_, ?_, ?_, ?_, ?_⟩
  · intro hc
    constructor
    · simp [get_client, hc]
    · simp [get_client, hc]
  · intro h hc
    simp [get_client, hc]
  · intro hc
    simp [ensure_client, hc]
  · intro h hc
    cases hs : s.client with
    | some c =>
      simp [ensure_client, hs] at hc ⊢
      simp [get_client, hs, hc]
    | none =>
      simp [ensure_client, hs] at hc ⊢
      simp [get_client, ← hc]
  · cases hs : s.clientContext with
    | some c => simp [close, hs]
    | none => simp [close, hs]
  · intro hc
    simp [close, hc]

/-- Witness for client_lifecycle_spec at the freshly initialized
state. -/
theorem client_lifecycle_spec_witness :
    (get_client initialClientState).2.client = none
    ∧ (ensure_client initialClientState).client = some 0
    ∧ close (close initialClientState) = close initialClientState := by
  have h := client_lifecycle_spec initialClientState
  exact ⟨(h.1 rfl).1, h.2.2.1 rfl, h.2.2.2.2.1⟩

/-- C7: construction fails with the ConfigurationError kind (a
construction-time `ValueError`) whenever the encode quality is outside
1..100, the bucket name is empty or whitespace-only, or the maximum
retry count is negative; with in-range parameters it succeeds and
stores the stripped bucket name and the validated values. -/
theorem init_validation_spec (bucket : String) (q r : Int) :
    ((pyStrip bucket = "" ∨ ¬ (1 ≤ q ∧ q ≤ 100) ∨ r < 0) →
      ∃ msg, S3JPEGManager.init bucket q r = .error (.valueError msg))
    ∧ ((pyStrip bucket ≠ "" ∧ 1 ≤ q ∧ q ≤ 100 ∧ 0 ≤ r) →
      S3JPEGManager.init bucket q r =
        .ok { bucket_name := pyStrip bucket, jpeg_quality := q,
              max_retries := r.toNat }) := by
  constructor
  · intro hbad
    by_cases h1 : pyStrip bucket = ""
    · exact ⟨_, by unfold S3JPEGManager.init; rw [if_pos h1]⟩
    · by_cases h2 : 1 ≤ q ∧ q ≤ 100
      · have h3 : r < 0 := by tauto
        exact ⟨_, by
          unfold S3JPEGManager.init
          rw [if_neg h1, if_neg (not_not_intro h2), if_pos h3]⟩
      · exact ⟨_, by
          unfold S3JPEGManager.init
          rw [if_neg h1, if_pos h2]⟩
  · rintro ⟨hb, hq1, hq2, hr⟩
    unfold S3JPEGManager.init
    rw [if_neg hb, if_neg (not_not_intro ⟨hq1, hq2⟩), if_neg (by omega)]

/-- Witness for init_validation_spec: quality 0 and quality 101 are
rejected, an empty bucket is rejected, and the default-like parameters
are accepted. -/
theorem init_validation_spec_witness :
    (∃ msg, S3JPEGManager.init "bucket" 0 3 = .error (.valueError msg))
    ∧ (∃ msg, S3JPEGManager.init "bucket" 101 3 = .error (.valueError msg))
    ∧ (∃ msg, S3JPEGManager.init "" 95 3 = .error (.valueError msg))
    ∧ (∃ msg, S3JPEGManager.init "bucket" 95 (-1) = .error (.valueError msg))
    ∧ S3JPEGManager.init "bucket" 95 3 =
        .ok { bucket_name := "bucket", jpeg_quality := 95, max_retries := 3 } := by
  refine ⟨?_, ?_, ?_, ?_, ?_⟩
  · exact (init_validation_spec "bucket" 0 3).1 (Or.inr (Or.inl (by omega)))
  · exact (init_validation_spec "bucket" 101 3).1 (Or.inr (Or.inl (by omega)))
  · exact (init_validation_spec "" 95 3).1 (Or.inl (by decide))
  · exact (init_validation_spec "bucket" 95 (-1)).1 (Or.inr (Or.inr (by omega)))
  · have h := (init_validation_spec "bucket" 95 3).2
      ⟨by decide, by omega, by omega, by omega⟩
    simpa using h

/-- C8: a blank key passed to the single-object get raises the
InvalidArgument kind (`ValueError`) with zero raw store calls — the
store is never contacted and the retry wrapper is never entered — and
an unsupported input type passed to the single-image upload likewise
raises `ValueError` with zero raw store calls. -/
theorem invalid_argument_before_store (m : S3JPEGManager)
    (get : Nat → GetOutcome) (put : Nat → PutOutcome)
    (filename key t : String) :
    (pyStrip filename = "" →
      download_image m get filename =
        (.error (.valueError "filename cannot be empty"), 0))
    ∧ (∃ msg, (upload_single_image m put key (.unsupported t)).1 =
        .error (.valueError msg))
    ∧ (upload_single_image m put key (.unsupported t)).2 = 0 := by
  refine ⟨?_, ?_, ?_⟩
  · intro h
    simp [download_image, h]
  · by_cases hk : pyStrip key = ""
    · exact ⟨"key cannot be empty", by simp [upload_single_image, hk]⟩
    · exact ⟨"Unsupported image type",
        by simp [upload_single_image, hk, toPILImage]⟩
  · by_cases hk : pyStrip key = ""
    · simp [upload_single_image, hk]
    · simp [upload_single_image, hk, toPILImage]

/-- Witness for invalid_argument_before_store with a whitespace-only
filename and an unsupported image input of Python type `int`. -/
theorem invalid_argument_before_store_witness :
    download_image testManager (fun _ => .ok [1]) "   " =
      (.error (.valueError "filename cannot be empty"), 0)
    ∧ (upload_single_image testManager (fun _ => .ok) "k"
        (.unsupported "int")).2 = 0 := by
  have h := invalid_argument_before_store testManager (fun _ => .ok [1])
    (fun _ => .ok) "   " "k" "int"
  exact ⟨h.1 (by decide), h.2.2⟩

/-- C9: an empty image list for the batch upload and an empty key list
for the batch download each return an empty result immediately, with
zero raw store calls. -/
theorem empty_batch_short_circuit (m : S3JPEGManager)
    (store : String → Nat → GetOutcome) (put : String → Nat → PutOutcome)
    (sid fname : String) (ign : Bool) (start : Int) :
    download_images m store [] ign = (.ok [], 0)
    ∧ upload_images m put sid fname [] start = (.ok [], 0) :=
  ⟨rfl, rfl⟩

/-- C10: the batch upload checks for an empty image list before
validating the file name — an empty image list returns an empty result
even for a blank file name — and for a blank file name the
InvalidArgument-kind `ValueError` is raised exactly when the image
list is non-empty. -/
theorem upload_images_empty_before_filename (m : S3JPEGManager)
    (put : String → Nat → PutOutcome) (sid fname : String)
    (images : List PILImage) (start : Int) :
    (upload_images m put sid fname [] start).1 = .ok []
    ∧ (pyStrip fname = "" →
        ((upload_images m put sid fname images start).1 =
            .error (.valueError "file_name cannot be empty")
          ↔ images ≠ [])) := by
  constructor
  · rfl
  · intro hF
    cases images with
    | nil => simp [upload_images]
    | cons i is => simp [upload_images, hF]

/-- Witness for upload_images_empty_before_filename at a blank file
name: the empty image list yields an empty result, the singleton image
list raises `ValueError`. -/
theorem upload_images_empty_before_filename_witness :
    (upload_images testManager (fun _ _ => .ok) "S" "  " [] 1).1 = .ok []
    ∧ (upload_images testManager (fun _ _ => .ok) "S" "  " [testImage] 1).1 =
        .error (.valueError "file_name cannot be empty") := by
  refine ⟨(upload_images_empty_before_filename testManager
    (fun _ _ => .ok) "S" "  " [] 1).1, ?_⟩
  exact ((upload_images_empty_before_filename testManager
    (fun _ _ => .ok) "S" "  " [testImage] 1).2 (by decide)).2 (by simp)

/-- C5 counterexample: the code strips surrounding whitespace from the
file name before deriving keys, so for the file name " doc.pdf " the
derived key is "S/doc.pdf/3.jpeg" and not the claimed
"S/ doc.pdf /3.jpeg" built from the file name as passed. -/
theorem upload_keys_trim_cx :
    (upload_images testManager (fun _ _ => .ok) "S" " doc.pdf " [testImage] 3).1 =
      .ok ["S/doc.pdf/3.jpeg"]
    ∧ (upload_images testManager (fun _ _ => .ok) "S" " doc.pdf " [testImage] 3).1 ≠
      .ok ["S/ doc.pdf /3.jpeg"] := by
  constructor
  · rfl
  · intro h
    rw [show (upload_images testManager (fun _ _ => .ok) "S" " doc.pdf "
        [testImage] 3).1 = .ok ["S/doc.pdf/3.jpeg"] from rfl] at h
    have hl : ["S/doc.pdf/3.jpeg"] = ["S/ doc.pdf /3.jpeg"] := by
      injection h
    exact absurd hl (by decide)

theorem retryGo_const_error {E A : Type} (e : E) (f a : Nat) :
    retryGo (fun _ => (.error e : Except E A)) a f =
      ⟨.error e, f + 1, (List.range' a f).map fun k => 2 ^ k⟩ := by
  have h := retryGo_all_fail (fun _ => (.error e : Except E A)) f a
    (fun k _ _ => rfl)
  simpa using h

theorem download_image_const (m : S3JPEGManager) (o : GetOutcome)
    (path : String) (hp : pyStrip path ≠ "") :
    (download_image m (fun _ => o) path).1 =
      match o with
      | .ok d => .ok d
      | .noSuchKey =>
        .error (.s3ImageNotFoundError ("Image not found: " ++ path))
      | .clientError c =>
        .error (.s3ImageDownloadError
          ("Failed to download " ++ path ++ ": " ++ c)) := by
  unfold download_image
  rw [if_neg hp]
  cases o with
  | ok d =>
    have h : retryGo (fun _ : Nat => (Except.ok d : Except PyErr (List Nat)))
        0 m.max_retries = ⟨.ok d, 1, []⟩ := retryGo_ok rfl
    exact congrArg RetryResult.result h
  | noSuchKey =>
    show (retryOperation m.max_retries fun _ =>
      (.error (.s3ImageNotFoundError ("Image not found: " ++ path)) :
        Except PyErr (List Nat))).result = _
    rw [retryOperation, retryGo_const_error]
  | clientError c =>
    show (retryOperation m.max_retries fun _ =>
      (.error (.s3ImageDownloadError
        ("Failed to download " ++ path ++ ": " ++ c)) :
        Except PyErr (List Nat))).result = _
    rw [retryOperation, retryGo_const_error]

theorem safe_download_const (m : S3JPEGManager) (store : String → GetOutcome)
    (ign : Bool) (path : String) (hp : pyStrip path ≠ "") :
    (safe_download m (fun p _ => store p) ign path).1 =
      match store path with
      | .ok d => .ok (some d)
      | .noSuchKey =>
        if ign then .ok none
        else .error (.s3ImageNotFoundError ("Image not found: " ++ path))
      | .clientError c =>
        .error (.s3ImageDownloadError
          ("Failed to download " ++ path ++ ": " ++ c)) := by
  have hd := download_image_const m (store path) path hp
  cases hs : store path with
  | ok d =>
    rw [hs] at hd
    simp only [] at hd
    simp [safe_download, hs, hd]
  | noSuchKey =>
    rw [hs] at hd
    simp only [] at hd
    cases ign with
    | true => simp [safe_download, hs, hd]
    | false => simp [safe_download, hs, hd]
  | clientError c =>
    rw [hs] at hd
    simp only [] at hd
    simp [safe_download, hs, hd]

theorem gatherE_map_of_ok {E A B : Type} (g : B → Except E A) (h : B → A)
    (l : List B) (hg : ∀ b ∈ l, g b = .ok (h b)) :
    gatherE (l.map g) = .ok (l.map h) := by
  induction l with
  | nil => rfl
  | cons b bs ih =>
    have hb := hg b (by simp)
    have hrest := ih (fun x hx => hg x (by simp [hx]))
    simp only [List.map_cons, hb, gatherE, hrest]

theorem gatherE_isOk_false {E A : Type} :
    ∀ ts : List (Except E A), (∃ t ∈ ts, t.isOk = false) →
      (gatherE ts).isOk = false := by
  intro ts
  induction ts with
  | nil => rintro ⟨t, ht, _⟩; cases ht
  | cons t ts ih =>
    rintro ⟨u, hu, hfu⟩
    cases t with
    | error e => simp [gatherE, Except.isOk, Except.toBool]
    | ok a =>
      have hu' : u ∈ ts := by
        rcases List.mem_cons.mp hu with h1 | h1
        · subst h1; simp [Except.isOk, Except.toBool] at hfu
        · exact h1
      have := ih ⟨u, hu', hfu⟩
      cases hg : gatherE ts with
      | ok rest => rw [hg] at this; simp [Except.isOk, Except.toBool] at this
      | error e => simp [gatherE, hg, Except.isOk, Except.toBool]

theorem gatherE_error_pred {E A : Type} (p : E → Prop) :
    ∀ ts : List (Except E A),
      (∀ t ∈ ts, ∀ e, t = .error e → p e) →
      ∀ e, gatherE ts = .error e → p e := by
  intro ts
  induction ts with
  | nil => intro _ e he; cases he
  | cons t ts ih =>
    intro hall e he
    cases t with
    | error e1 =>
      simp only [gatherE] at he
      have he' : e1 = e := by injection he
      subst he'
      exact hall (.error e1) (by simp) e1 rfl
    | ok a =>
      cases hg : gatherE ts with
      | ok rest => rw [gatherE, hg] at he; cases he
      | error e1 =>
        rw [gatherE, hg] at he
        have he' : e1 = e := by injection he
        subst he'
        exact ih (fun t ht => hall t (by simp [ht])) e1 hg

theorem gatherE_error_exists {E A : Type} (ts : List (Except E A))
    (h : (gatherE ts).isOk = false) : ∃ e, gatherE ts = .error e := by
  cases hg : gatherE ts with
  | ok rs => rw [hg] at h; simp [Except.isOk, Except.toBool] at h
  | error e => exact ⟨e, rfl⟩

/-- C4: for the batch download over per-key store outcomes with no
blank key: with ignoreMissing = true, a NotFound for an individual key
yields an explicit absent marker (None) at that key's position while
the rest of the batch completes (when no key has a hard failure, the
result is ok with exactly the per-key payload or None); any hard
(non-NotFound) failure of any key aborts the whole batch; and with
ignoreMissing = false, a NotFound for any key aborts the batch with an
S3ImageNotFoundError and no partial results. -/
theorem download_images_failure_policy (m : S3JPEGManager)
    (store : String → GetOutcome) (paths : List String)
    (hpaths : ∀ p ∈ paths, pyStrip p ≠ "") :
    ((∀ p ∈ paths, ∀ c, store p ≠ .clientError c) →
      (download_images m (fun p _ => store p) paths true).1 =
        .ok (paths.map fun p =>
          match store p with
          | .ok d => some d
          | _ => none))
    ∧ ((∃ p ∈ paths, ∃ c, store p = .clientError c) →
        ((download_images m (fun p _ => store p) paths true).1).isOk = false)
    ∧ ((∀ p ∈ paths, ∀ c, store p ≠ .clientError c) →
      (∃ p ∈ paths, store p = .noSuchKey) →
      ∃ msg, (download_images m (fun p _ => store p) paths false).1 =
        .error (.s3ImageNotFoundError msg)) := by
  refine ⟨?_, ?_, ?_⟩
  · intro hnoerr
    cases hps : paths with
    | nil => rfl
    | cons q qs =>
      rw [← hps]
      have hne : paths.isEmpty = false := by rw [hps]; rfl
      simp only [download_images, hne, Bool.false_eq_true, if_false,
        List.map_map]
      exact gatherE_map_of_ok _ _ paths (fun p hp => by
        have hs := safe_download_const m store true p (hpaths p hp)
        rcases hso : store p with d | _ | c
        · rw [hso] at hs; simpa [hso] using hs
        · rw [hso] at hs; simpa [hso] using hs
        · exact absurd hso (by simpa using hnoerr p hp c))
  · rintro ⟨p0, hp0, c0, hc0⟩
    have hne : paths.isEmpty = false := by
      cases paths with
      | nil => cases hp0
      | cons q qs => rfl
    simp only [download_images, hne, Bool.false_eq_true, if_false,
      List.map_map]
    apply gatherE_isOk_false
    refine ⟨(safe_download m (fun p _ => store p) true p0).1, ?_, ?_⟩
    · exact List.mem_map_of_mem _ hp0
    · have hs := safe_download_const m store true p0 (hpaths p0 hp0)
      rw [hc0] at hs
      simp only [] at hs
      rw [hs]
      rfl
  · intro hnoerr
    rintro ⟨p0, hp0, h404⟩
    have hne : paths.isEmpty = false := by
      cases paths with
      | nil => cases hp0
      | cons q qs => rfl
    have hfalse : ((download_images m (fun p _ => store p) paths false).1).isOk
        = false := by
      simp only [download_images, hne, Bool.false_eq_true, if_false,
        List.map_map]
      apply gatherE_isOk_false
      refine ⟨(safe_download m (fun p _ => store p) false p0).1, ?_, ?_⟩
      · exact List.mem_map_of_mem _ hp0
      · have hs := safe_download_const m store false p0 (hpaths p0 hp0)
        rw [h404] at hs
        simp only [] at hs
        rw [hs]
        rfl
    have hpred : ∀ e, gatherE ((paths.map
        (safe_download m (fun p _ => store p) false)).map Prod.fst) = .error e →
        ∃ msg, e = .s3ImageNotFoundError msg := by
      rw [List.map_map]
      intro e he
      refine gatherE_error_pred (fun e => ∃ msg, e = .s3ImageNotFoundError msg)
        _ ?_ e he
      intro t ht e1 hte
      rcases List.mem_map.mp ht with ⟨p, hp, hpt⟩
      have hpt' : (safe_download m (fun q _ => store q) false p).1 = t := hpt
      have hsc := safe_download_const m store false p (hpaths p hp)
      rcases hso : store p with d | _ | c
      · rw [hso] at hsc
        simp only [] at hsc
        have hcontra := hsc.symm.trans (hpt'.trans hte)
        cases hcontra
      · rw [hso] at hsc
        simp only [Bool.false_eq_true, if_false] at hsc
        have h2 := hsc.symm.trans (hpt'.trans hte)
        have h3 : PyErr.s3ImageNotFoundError ("Image not found: " ++ p) = e1 :=
          by injection h2
        exact ⟨_, h3.symm⟩
      · exact absurd hso (by simpa using hnoerr p hp c)
    simp only [download_images, hne, Bool.false_eq_true, if_false] at hfalse ⊢
    rcases gatherE_error_exists _ hfalse with ⟨e, he⟩
    rcases hpred e he with ⟨msg, hmsg⟩
    exact ⟨msg, by rw [he, hmsg]⟩

/-- Witness for download_images_failure_policy on three keys of which
one is absent: ignoreMissing = true gives a 3-element result with one
absent marker; ignoreMissing = false raises NotFound. -/
theorem download_images_failure_policy_witness :
    (download_images testManager
        (fun p _ => if p = "b" then .noSuchKey else .ok [7])
        ["a", "b", "c"] true).1 = .ok [some [7], none, some [7]]
    ∧ ∃ msg, (download_images testManager
        (fun p _ => if p = "b" then .noSuchKey else .ok [7])
        ["a", "b", "c"] false).1 = .error (.s3ImageNotFoundError msg) := by
  have h := download_images_failure_policy testManager
    (fun p => if p = "b" then .noSuchKey else .ok [7]) ["a", "b", "c"]
    (by intro p hp; fin_cases hp <;> decide)
  constructor
  · have h1 := h.1 (by intro p hp c; fin_cases hp <;> simp)
    simpa using h1
  · exact h.2.2 (by intro p hp c; fin_cases hp <;> simp)
      ⟨"b", by simp, by simp⟩

theorem fillSlots_cons {A : Type} (f : Nat → A) (i : Nat) (os : List Nat)
    (slots : List (Option A)) :
    fillSlots f (i :: os) slots = fillSlots f os (slots.set i (some (f i))) :=
  rfl

theorem fillSlots_length {A : Type} (f : Nat → A) :
    ∀ (order : List Nat) (slots : List (Option A)),
      (fillSlots f order slots).length = slots.length := by
  intro order
  induction order with
  | nil => intro slots; rfl
  | cons i os ih =>
    intro slots
    rw [fillSlots_cons, ih, List.length_set]

theorem fillSlots_getElem? {A : Type} (f : Nat → A) :
    ∀ (order : List Nat) (slots : List (Option A)) (j : Nat),
      (fillSlots f order slots)[j]? =
        if j ∈ order ∧ j < slots.length then some (some (f j))
        else slots[j]? := by
  intro order
  induction order with
  | nil =>
    intro slots j
    simp [fillSlots]
  | cons i os ih =>
    intro slots j
    rw [fillSlots_cons, ih, List.length_set]
    by_cases hij : i = j
    · subst hij
      by_cases hlen : i < slots.length
      · by_cases hmem : i ∈ os
        · simp [hmem, hlen]
        · simp [hmem, hlen, List.getElem?_set]
      · have hnone : slots[i]? = none :=
          List.getElem?_eq_none (Nat.le_of_not_lt hlen)
        by_cases hmem : i ∈ os
        · simp [hmem, hlen, List.getElem?_set, hnone]
        · simp [hmem, hlen, List.getElem?_set, hnone]
    · by_cases hmem : j ∈ os
      · by_cases hlen : j < slots.length
        · simp [hmem, hlen]
        · simp [hmem, hlen, List.getElem?_set, hij, Ne.symm hij]
      · by_cases hlen : j < slots.length
        · simp [hmem, hij, hlen, List.getElem?_set, Ne.symm hij]
        · simp [hmem, hij, hlen, List.getElem?_set, Ne.symm hij]

theorem gatherSlots_perm {A : Type} (f : Nat → A) (n : Nat) (order : List Nat)
    (h : order.Perm (List.range n)) :
    gatherSlots f n order = (List.range n).map fun i => some (f i) := by
  apply List.ext_getElem?
  intro j
  rw [gatherSlots, fillSlots_getElem?]
  by_cases hj : j < n
  · have hmem : j ∈ order := h.mem_iff.mpr (List.mem_range.mpr hj)
    rw [if_pos ⟨hmem, by simpa using hj⟩]
    rw [List.getElem?_map, List.getElem?_range hj]
    rfl
  · rw [if_neg (by simp [hj])]
    rw [List.getElem?_map]
    have h1 : (List.replicate n (none : Option A))[j]? = none := by
      rw [List.getElem?_replicate, if_neg hj]
    have h2 : (List.range n)[j]? = none := by
      rw [List.getElem?_eq_none]
      simpa using Nat.le_of_not_lt hj
    rw [h1, h2]
    rfl

theorem range_map_getD {A : Type} (l : List A) (d : A) :
    (List.range l.length).map (fun i => some (l.getD i d)) = l.map some := by
  apply List.ext_getElem?
  intro j
  rw [List.getElem?_map, List.getElem?_map]
  by_cases hj : j < l.length
  · rw [List.getElem?_range hj]
    rcases List.getElem?_eq_some_iff.mpr ⟨hj, rfl⟩ with h
    rw [h]
    simp [h]
  · have h2 : (List.range l.length)[j]? = none := by
      rw [List.getElem?_eq_none]
      simpa using Nat.le_of_not_lt hj
    have h3 : l[j]? = none := by
      rw [List.getElem?_eq_none]
      exact Nat.le_of_not_lt hj
    rw [h2, h3]
    rfl

theorem gatherE_ok_get {E A : Type} :
    ∀ (ts : List (Except E A)) (rs : List A), gatherE ts = .ok rs →
      rs.length = ts.length
      ∧ ∀ i (h1 : i < ts.length) (h2 : i < rs.length),
          ts.get ⟨i, h1⟩ = .ok (rs.get ⟨i, h2⟩) := by
  intro ts
  induction ts with
  | nil =>
    intro rs h
    have hrs : rs = [] := by
      simp only [gatherE] at h
      injection h with h
      exact h.symm
    subst hrs
    exact ⟨rfl, fun i h1 _ => absurd h1 (by simp)⟩
  | cons t ts ih =>
    intro rs h
    cases t with
    | error e => simp only [gatherE] at h; cases h
    | ok a =>
      cases hg : gatherE ts with
      | error e => rw [gatherE, hg] at h; cases h
      | ok rest =>
        rw [gatherE, hg] at h
        have hrs : rs = a :: rest := by injection h with h; exact h.symm
        subst hrs
        rcases ih rest hg with ⟨hlen, hget⟩
        refine ⟨by simpa using hlen, ?_⟩
        intro i h1 h2
        cases i with
        | zero => rfl
        | succ i =>
          exact hget i (by simpa using h1) (by simpa using h2)

/-- C6: the batch download is positionally aligned with its input.
The slot-filling model of the concurrent gather (each task writes its
value into the pre-sized slot of its own index) produces the in-order
task results for every completion order that is a permutation of the
task indices; and whenever `download_images` returns a result list,
that list has the length of the input key list and its i-th element is
the result of the i-th key's fetch. -/
theorem download_images_order_spec (m : S3JPEGManager)
    (store : String → Nat → GetOutcome) (ign : Bool) (paths : List String)
    (order : List Nat) (hperm : order.Perm (List.range paths.length)) :
    gatherSlots (fun i =>
        ((paths.map fun p => (safe_download m store ign p).1).getD i
          (.ok none)))
        paths.length order =
      (paths.map fun p => (safe_download m store ign p).1).map some
    ∧ ∀ res, (download_images m store paths ign).1 = .ok res →
        res.length = paths.length
        ∧ ∀ i (h1 : i < paths.length) (h2 : i < res.length),
            Except.ok (res.get ⟨i, h2⟩) =
              (safe_download m store ign (paths.get ⟨i, h1⟩)).1 := by
  constructor
  · have h1 := gatherSlots_perm (fun i =>
      ((paths.map fun p => (safe_download m store ign p).1).getD i (.ok none)))
      paths.length order (by simpa using hperm)
    rw [h1]
    have h2 := range_map_getD (paths.map fun p => (safe_download m store ign p).1)
      (.ok none)
    simpa using h2
  · intro res hres
    rcases paths with _ | ⟨q, qs⟩
    · have hr : res = [] := by
        simp only [download_images] at hres
        injection hres with h
        exact h.symm
      subst hr
      exact ⟨rfl, fun i h1 _ => absurd h1 (by simp)⟩
    · have hne : ((q :: qs) : List String).isEmpty = false := rfl
      simp only [download_images, hne, Bool.false_eq_true, if_false,
        List.map_map] at hres
      rcases gatherE_ok_get _ res hres with ⟨hlen, hget⟩
      have hlen' : res.length = (q :: qs).length := by simpa using hlen
      refine ⟨hlen', ?_⟩
      intro i hi1 hi2
      have hi3 : i < ((q :: qs).map
          (Prod.fst ∘ safe_download m store ign)).length := by simpa using hi1
      have h := hget i hi3 hi2
      rw [List.get_map] at h
      exact h.symm

/-- Witness for download_images_order_spec on two keys with the
completion order reversed: the slot model still yields the in-order
results, and the returned list is positionally aligned. -/
theorem download_images_order_spec_witness :
    ([1, 0] : List Nat).Perm (List.range 2)
    ∧ gatherSlots (fun i =>
        (((["a", "b"] : List String).map fun p =>
          (safe_download testManager (fun _ _ => .ok [7]) false p).1).getD i
          (.ok none))) 2 [1, 0] =
      ((["a", "b"] : List String).map fun p =>
        (safe_download testManager (fun _ _ => .ok [7]) false p).1).map some
    ∧ (download_images testManager (fun _ _ => .ok [7]) ["a", "b"] false).1 =
        .ok [some [7], some [7]] := by
  refine ⟨by decide, ?_, rfl⟩
  exact (download_images_order_spec testManager (fun _ _ => .ok [7]) false
    ["a", "b"] [1, 0] (by decide)).1

theorem toDigitsCore_append :
    ∀ n : Nat, ∀ f acc, n < f →
      Nat.toDigitsCore 10 f n acc = Nat.toDigits 10 n ++ acc := by
  intro n
  induction n using Nat.strong_induction_on with
  | _ n ih =>
    intro f acc hf
    match f, hf with
    | f + 1, hf =>
      rw [Nat.toDigits, Nat.toDigitsCore, Nat.toDigitsCore]
      by_cases h0 : n / 10 = 0
      · simp only [h0, if_true]
        rfl
      · simp only [h0, if_false]
        have hlt : n / 10 < n := Nat.div_lt_self
          (by omega) (by omega)
        rw [ih (n / 10) hlt f (Nat.digitChar (n % 10) :: acc) (by omega),
          ih (n / 10) hlt n [Nat.digitChar (n % 10)] (by omega)]
        simp

theorem toDigits_lt10 (n : Nat) (h0 : n / 10 = 0) :
    Nat.toDigits 10 n = [Nat.digitChar (n % 10)] := by
  rw [Nat.toDigits, Nat.toDigitsCore]
  simp only [h0, if_true]

theorem toDigits_ge10 (n : Nat) (h0 : n / 10 ≠ 0) :
    Nat.toDigits 10 n =
      Nat.toDigits 10 (n / 10) ++ [Nat.digitChar (n % 10)] := by
  conv_lhs => rw [Nat.toDigits, Nat.toDigitsCore]
  simp only [h0, if_false]
  have hlt : n / 10 < n := Nat.div_lt_self (by omega) (by omega)
  exact toDigitsCore_append (n / 10) n [Nat.digitChar (n % 10)] (by omega)

theorem digitVal_digitChar : ∀ d, d < 10 → digitVal (Nat.digitChar d) = d := by
  decide

theorem digitChar_ne_dash : ∀ d, d < 10 → Nat.digitChar d ≠ '-' := by
  decide

theorem toDigits_foldl_val (n : Nat) :
    ∀ a, (Nat.toDigits 10 n).foldl (fun x c => x * 10 + digitVal c) a =
      a * 10 ^ (Nat.toDigits 10 n).length + n := by
  induction n using Nat.strong_induction_on with
  | _ n ih =>
    intro a
    by_cases h0 : n / 10 = 0
    · rw [toDigits_lt10 n h0]
      have hn : n < 10 := by omega
      have hmod : n % 10 = n := Nat.mod_eq_of_lt hn
      show a * 10 + digitVal (Nat.digitChar (n % 10)) = a * 10 ^ 1 + n
      rw [digitVal_digitChar (n % 10) (by omega), hmod, pow_one]
    · rw [toDigits_ge10 n h0]
      have hlt : n / 10 < n := Nat.div_lt_self (by omega) (by omega)
      rw [List.foldl_append, ih (n / 10) hlt a]
      simp only [List.foldl]
      rw [digitVal_digitChar (n % 10) (by omega)]
      rw [List.length_append]
      simp only [List.length_singleton]
      rw [pow_succ]
      have hdm := Nat.div_add_mod n 10
      ring_nf
      omega

theorem digitsVal_toDigits (n : Nat) :
    digitsVal (Nat.toDigits 10 n) = n := by
  rw [digitsVal, toDigits_foldl_val n 0]
  simp

theorem natRepr_inj (m n : Nat) (h : Nat.repr m = Nat.repr n) : m = n := by
  have hm : Nat.repr m = (Nat.toDigits 10 m).asString := rfl
  have hn : Nat.repr n = (Nat.toDigits 10 n).asString := rfl
  rw [hm, hn] at h
  have hd : Nat.toDigits 10 m = Nat.toDigits 10 n := congrArg String.data h
  calc m = digitsVal (Nat.toDigits 10 m) := (digitsVal_toDigits m).symm
    _ = digitsVal (Nat.toDigits 10 n) := by rw [hd]
    _ = n := digitsVal_toDigits n

theorem toDigits_head (n : Nat) :
    ∃ d rest, d < 10 ∧ Nat.toDigits 10 n = Nat.digitChar d :: rest := by
  induction n using Nat.strong_induction_on with
  | _ n ih =>
    by_cases h0 : n / 10 = 0
    · exact ⟨n % 10, [], by omega, toDigits_lt10 n h0⟩
    · have hlt : n / 10 < n := Nat.div_lt_self (by omega) (by omega)
      rcases ih (n / 10) hlt with ⟨d, rest, hd, hrest⟩
      exact ⟨d, rest ++ [Nat.digitChar (n % 10)], hd,
        by rw [toDigits_ge10 n h0, hrest]; rfl⟩

theorem natRepr_head_not_dash (n : Nat) :
    ∃ rest, (Nat.repr n).data = rest ∧ rest ≠ [] ∧ rest.head? ≠ some '-' := by
  rcases toDigits_head n with ⟨d, rest, hd, hrest⟩
  refine ⟨(Nat.toDigits 10 n), rfl, by simp [hrest], ?_⟩
  rw [hrest]
  simp only [List.head?_cons, ne_eq, Option.some.injEq]
  exact digitChar_ne_dash d hd

theorem intToString_inj (a b : Int) (h : toString a = toString b) : a = b := by
  cases a with
  | ofNat m =>
    cases b with
    | ofNat n =>
      have hmn : Nat.repr m = Nat.repr n := h
      rw [natRepr_inj m n hmn]
    | negSucc n =>
      exfalso
      have hd : (Nat.repr m).data = ("-" ++ Nat.repr (n + 1)).data :=
        congrArg String.data h
      rw [String.data_append] at hd
      rcases natRepr_head_not_dash m with ⟨rest, hrest, hne, hhead⟩
      rw [hrest] at hd
      apply hhead
      rw [hd]
      rfl
  | negSucc m =>
    cases b with
    | ofNat n =>
      exfalso
      have hd : ("-" ++ Nat.repr (m + 1)).data = (Nat.repr n).data :=
        congrArg String.data h
      rw [String.data_append] at hd
      rcases natRepr_head_not_dash n with ⟨rest, hrest, hne, hhead⟩
      rw [hrest] at hd
      apply hhead
      rw [← hd]
      rfl
    | negSucc n =>
      have hd : ("-" ++ Nat.repr (m + 1)).data = ("-" ++ Nat.repr (n + 1)).data :=
        congrArg String.data h
      rw [String.data_append, String.data_append] at hd
      have hd2 : (Nat.repr (m + 1)).data = (Nat.repr (n + 1)).data :=
        List.append_cancel_left hd
      have hmn1 := natRepr_inj (m + 1) (n + 1) (String.ext hd2)
      have hmn : m = n := by omega
      rw [hmn]


theorem uploadKey_inj (sid ft : String) (p q : Int)
    (h : sid ++ "/" ++ ft ++ "/" ++ toString p ++ ".jpeg" =
      sid ++ "/" ++ ft ++ "/" ++ toString q ++ ".jpeg") : p = q := by
  have hd := congrArg String.data h
  simp only [String.data_append, List.append_assoc] at hd
  have h1 := List.append_cancel_left hd
  have h2 := List.append_cancel_left h1
  have h3 := List.append_cancel_left h2
  have h4 := List.append_cancel_left h3
  have h5 := List.append_cancel_right h4
  exact intToString_inj p q (String.ext h5)

/-- C5 (amended): for a non-empty image list, session id S, file name
F that is non-blank after stripping, and start page p, the batch
upload derives exactly one key per image, in order, of the form
S ++ "/" ++ strip(F) ++ "/" ++ page ++ ".jpeg" — the file name is
stripped of surrounding whitespace first — with page running
sequentially from p, so all keys are distinct; with a succeeding store
the batch returns exactly these keys in order. -/
theorem upload_keys_spec (m : S3JPEGManager) (put : String → Nat → PutOutcome)
    (sid fname : String) (images : List PILImage) (start : Int)
    (hne : images ≠ []) (hF : pyStrip fname ≠ "")
    (hput : ∀ k n, put k n = .ok) :
    (upload_images m put sid fname images start).1 =
      .ok (uploadKeys sid fname images.length start)
    ∧ (uploadKeys sid fname images.length start).length = images.length
    ∧ (∀ i : Nat, i < images.length →
        (uploadKeys sid fname images.length start)[i]? =
          some (sid ++ "/" ++ pyStrip fname ++ "/" ++
            toString (start + i) ++ ".jpeg"))
    ∧ (uploadKeys sid fname images.length start).Nodup := by
  have htask : ∀ k, (uploadImage m (put k) k).1 = .ok () := by
    intro k
    show (retryGo (fun attempt =>
      match put k attempt with
      | PutOutcome.ok => (Except.ok () : Except PyErr Unit)
      | PutOutcome.failed code =>
        Except.error (PyErr.s3ImageUploadError
          ("Failed to upload image to " ++ k ++ ": " ++ code)))
      0 m.max_retries).result = Except.ok ()
    rw [retryGo_ok (by rw [hput k 0])]
  refine ⟨?_, ?_, ?_, ?_⟩
  · have hempty : images.isEmpty = false := by
      cases images with
      | nil => exact absurd rfl hne
      | cons i is => rfl
    simp only [upload_images, hempty, Bool.false_eq_true, if_false,
      if_neg hF, List.map_map]
    rw [gatherE_map_of_ok (Prod.fst ∘ fun k => uploadImage m (put k) k)
      (fun _ => ()) (uploadKeys sid fname images.length start)
      (fun k _ => htask k)]
  · simp [uploadKeys]
  · intro i hi
    rw [uploadKeys, List.getElem?_map, List.getElem?_range hi]
    rfl
  · rw [uploadKeys]
    refine List.Nodup.map ?_ (List.nodup_range images.length)
    intro i j hij
    have hpq := uploadKey_inj sid (pyStrip fname) (start + (i : Int))
      (start + (j : Int)) hij
    omega

/-- Witness for upload_keys_spec: two images with start 3 and file
name "doc.pdf" yield the keys "S/doc.pdf/3.jpeg" and "S/doc.pdf/4.jpeg",
in that order, and the derived keys are distinct. -/
theorem upload_keys_spec_witness :
    (upload_images testManager (fun _ _ => .ok) "S" "doc.pdf"
        [testImage, testImage] 3).1 =
      .ok ["S/doc.pdf/3.jpeg", "S/doc.pdf/4.jpeg"]
    ∧ (uploadKeys "S" "doc.pdf" 2 3).Nodup := by
  have h := upload_keys_spec testManager (fun _ _ => .ok) "S" "doc.pdf"
    [testImage, testImage] 3 (by simp) (by decide) (fun _ _ => rfl)
  refine ⟨?_, h.2.2.2⟩
  exact h.1.trans (congrArg Except.ok (by decide))
